import Mathlib

/-!
Shallow embedding of `dalvikpedia.py` (Dalvik Opcode Explorer).

The program fetches an HTML table of Dalvik opcodes, builds a single
string-keyed dictionary `self.opcodes` holding both mnemonic keys
(lowercased first token of column 1) and hex keys (the raw column-0 text
behind a literal `"hex:"` marker), and resolves queries with
`find_opcode`.  Network and HTML extraction are modelled as already
having produced the list of per-row cell texts; everything from the cell
texts onward is embedded faithfully.

Python string methods are modelled by explicit structural recursion over
the character list of a `String`, so that every definition evaluates by
kernel reduction.
-/

namespace Dalvikpedia

/-- Python's default `str.strip` whitespace set (ASCII part). -/
def pyIsSpace (c : Char) : Bool :=
  c = ' ' || c = '\t' || c = '\n' || c = '\r' || c = '\x0b' || c = '\x0c'

/-- Drop leading characters satisfying `p`. -/
def dropLeading (p : Char → Bool) : List Char → List Char
  | [] => []
  | c :: cs => if p c then dropLeading p cs else c :: cs

/-- Python `str.strip()`: remove leading and trailing whitespace. -/
def pyStrip (s : String) : String :=
  String.mk ((dropLeading pyIsSpace ((dropLeading pyIsSpace s.data).reverse)).reverse)

/-- Python `str.lower()` (ASCII case mapping, which covers this data). -/
def strLower (s : String) : String :=
  String.mk (s.data.map Char.toLower)

/-- `pfx` is a leading run of `l`. -/
def isPfx : List Char → List Char → Bool
  | [], _ => true
  | _ :: _, [] => false
  | p :: ps, c :: cs => p = c && isPfx ps cs

/-- Python `s.startswith(pfx)`. -/
def startsWithStr (s pfx : String) : Bool :=
  isPfx pfx.data s.data

/-- Python `needle in hay` (substring containment). -/
def containsSub : List Char → List Char → Bool
  | [], needle => isPfx needle []
  | c :: cs, needle => isPfx needle (c :: cs) || containsSub cs needle

/-- Python `needle in hay` on `String`. -/
def strContains (hay needle : String) : Bool :=
  containsSub hay.data needle.data

/-- Python `str.split()` with no argument: maximal runs of
non-whitespace characters, never yielding empty tokens.  The
accumulator holds the current token reversed. -/
def splitWsGo : List Char → List Char → List String
  | [], acc => if acc = [] then [] else [String.mk acc.reverse]
  | c :: cs, acc =>
    if pyIsSpace c then
      if acc = [] then splitWsGo cs [] else String.mk acc.reverse :: splitWsGo cs []
    else splitWsGo cs (c :: acc)

/-- Python `s.split()`. -/
def pySplit (s : String) : List String :=
  splitWsGo s.data []

/-- Python `s.replace("0x", "")`: remove every occurrence of `"0x"`,
scanning left to right (specialised to the pattern the program uses at
`main`, line 163). -/
def removeSub0x : List Char → List Char
  | [] => []
  | [c] => [c]
  | c1 :: c2 :: cs =>
    if c1 = '0' && c2 = 'x' then removeSub0x cs
    else c1 :: removeSub0x (c2 :: cs)

/-- Python `s.replace("0x", "")` on `String`. -/
def pyReplace0x (s : String) : String :=
  String.mk (removeSub0x s.data)

/-- Python `s.zfill(width)`: left-pad with `'0'` to `width` characters,
keeping a leading sign character in front of the padding. -/
def zfill (s : String) (width : Nat) : String :=
  if width ≤ s.data.length then s
  else
    match s.data with
    | [] => String.mk (List.replicate width '0')
    | c :: cs =>
      if c = '+' || c = '-' then
        String.mk (c :: (List.replicate (width - s.data.length) '0' ++ cs))
      else
        String.mk (List.replicate (width - s.data.length) '0' ++ s.data)

/-- One opcode table row as scraped (spec §3 RawRow): the stripped text
of cells 0..3 of a table row (`fetch_opcodes`, lines 40-43). -/
structure RawRow where
  hex : String
  opcodeName : String
  explanation : String
  exampleText : String
deriving DecidableEq, Repr

/-- The record dict stored in `self.opcodes` (`fetch_opcodes`, lines
52-58).  Python key `'example'` is field `exampleText` (`example` is a
Lean keyword). -/
structure OpcodeRecord where
  hex : String
  name : String
  full_name : String
  explanation : String
  exampleText : String
deriving DecidableEq, Repr

/-- Models the Python empty dict `{}` default of
`self.opcodes.get(name_lower, {})` at line 62. -/
def emptyRecord : OpcodeRecord :=
  { hex := "", name := "", full_name := "", explanation := "", exampleText := "" }

/-- Cell extraction for one row of at least 3 cells (`fetch_opcodes`,
lines 40-43): stripped text of cells 0..3, defaulting to `""`. -/
def extractRow (cols : List String) : RawRow :=
  { hex := pyStrip (cols.getD 0 "")
    opcodeName := pyStrip (cols.getD 1 "")
    explanation := if 2 < cols.length then pyStrip (cols.getD 2 "") else ""
    exampleText := if 3 < cols.length then pyStrip (cols.getD 3 "") else "" }

/-- The row loop's cell filtering (`fetch_opcodes`, lines 37-43):
`cellRows` is the list of cell-text lists of the non-header table rows;
rows with fewer than 3 cells are skipped. -/
def parseRows (cellRows : List (List String)) : List RawRow :=
  cellRows.filterMap (fun cols => if 3 ≤ cols.length then some (extractRow cols) else none)

/-- Python dict insertion on an association list kept in dict iteration
order: overwriting keeps the key's original position, a new key is
appended. -/
def insertEntry : List (String × OpcodeRecord) → String → OpcodeRecord → List (String × OpcodeRecord)
  | [], k, v => [(k, v)]
  | (k', v') :: es, k, v =>
    if k' = k then (k, v) :: es else (k', v') :: insertEntry es k v

/-- Python dict lookup on the association list. -/
def lookupEntry : List (String × OpcodeRecord) → String → Option OpcodeRecord
  | [], _ => none
  | (k, v) :: es, key => if k = key then some v else lookupEntry es key

/-- How index construction can raise (both are caught by the blanket
`except Exception` at line 67 and end the run):
`indexError` models `opcode_name.split()[0]` on a whitespace-only
name (line 47), `nameError` models reading the local `name_lower` at
line 62 before any row has assigned it. -/
inductive BuildErr where
  | nameError
  | indexError
deriving DecidableEq, Repr

/-- The loop state of `fetch_opcodes`: the dict built so far and the
current value of the Python local `name_lower` (unassigned ↦ `none`). -/
structure BuildState where
  entries : List (String × OpcodeRecord)
  lastNameLower : Option String
deriving Repr

/-- Python `opcode_name.split()[0]` guarded by `if opcode_name` (line
47): `none` when there is no first token. -/
def firstTok (s : String) : Option String :=
  (pySplit s).head?

/-- The record dict literal of lines 52-58. -/
def mkRecord (r : RawRow) (base_name : String) : OpcodeRecord :=
  { hex := r.hex, name := base_name, full_name := r.opcodeName
    explanation := r.explanation, exampleText := r.exampleText }

/-- Lines 45-58: derive `base_name`, and when non-empty store the record
under `base_name.lower()` and update the local `name_lower`.  A
non-empty `opcodeName` with no token (impossible for stripped cell text)
raises `IndexError` as `split()[0]` does. -/
def nameStep (st : BuildState) (r : RawRow) : Except BuildErr BuildState :=
  if r.opcodeName = "" then .ok st
  else
    match firstTok r.opcodeName with
    | none => .error .indexError
    | some base_name =>
      let name_lower := strLower base_name
      .ok { entries := insertEntry st.entries name_lower (mkRecord r base_name)
            lastNameLower := some name_lower }

/-- Lines 60-62: when the hex cell is non-empty, store
`self.opcodes.get(name_lower, {})` under the key `"hex:" + opcode_hex`
(raw cell text, no normalization).  Reading `name_lower` before any
assignment is Python's `NameError`. -/
def hexStep (st : BuildState) (r : RawRow) : Except BuildErr BuildState :=
  if r.hex = "" then .ok st
  else
    match st.lastNameLower with
    | none => .error .nameError
    | some nl =>
      .ok { entries := insertEntry st.entries ("hex:" ++ r.hex) ((lookupEntry st.entries nl).getD emptyRecord)
            lastNameLower := st.lastNameLower }

/-- One iteration of the row loop (lines 37-62): name insertion, then
hex insertion. -/
def buildStep (st : BuildState) (r : RawRow) : Except BuildErr BuildState :=
  match nameStep st r with
  | .error e => .error e
  | .ok st1 => hexStep st1 r

/-- The whole row loop starting from state `st`. -/
def buildGo : BuildState → List RawRow → Except BuildErr (List (String × OpcodeRecord))
  | st, [] => .ok st.entries
  | st, r :: rs =>
    match buildStep st r with
    | .error e => .error e
    | .ok st' => buildGo st' rs

/-- `fetch_opcodes`' index construction from the parsed rows: the final
contents of `self.opcodes`, or the parsing error that aborts the run. -/
def buildEntries (rows : List RawRow) : Except BuildErr (List (String × OpcodeRecord)) :=
  buildGo { entries := [], lastNameLower := none } rows

/-- Observable outcome of `find_opcode` (spec §4.2 LookupResult):
`found` is a returned record, `suggestions` is the printed
did-you-mean list (the function then returns `None`), `notFound` is a
bare `None`. -/
inductive LookupResult where
  | found (r : OpcodeRecord)
  | suggestions (rs : List OpcodeRecord)
  | notFound
deriving DecidableEq, Repr

/-- Line 73: `search_term.lower().strip()`. -/
def normalizeQuery (search_term : String) : String :=
  pyStrip (strLower search_term)

/-- `find_opcode` (lines 71-99) over the built entries. -/
def find_opcode (opcodes : List (String × OpcodeRecord)) (search_term : String) : LookupResult :=
  let search_lower := normalizeQuery search_term
  if startsWithStr search_lower "hex:" then
    match lookupEntry opcodes search_lower with
    | some d => .found d
    | none => .notFound
  else
    match lookupEntry opcodes search_lower with
    | some d => .found d
    | none =>
      let ms := (opcodes.filter
        (fun nd => !startsWithStr nd.1 "hex:" && strContains nd.1 search_lower)).map Prod.snd
      if ms = [] then .notFound else .suggestions ms

/-- Lines 161-164: the search term main builds from a `--hex` argument:
`"hex:" + hex.lower().replace("0x", "").strip().zfill(2)`. -/
def hexSearchTerm (hexArg : String) : String :=
  "hex:" ++ zfill (pyStrip (pyReplace0x (strLower hexArg))) 2

/-- Python truthiness of `args.name` / `args.hex`: `None` and `""` are
falsy. -/
def pyTruthy : Option String → Bool
  | none => false
  | some s => !(s = "")

/-- Models the argparse mutually-exclusive required group (lines
144-148): exactly one of the two options is supplied on the command
line; an option given an empty string still counts as supplied. -/
def argsValid (nameArg hexArg : Option String) : Bool :=
  (nameArg.isSome || hexArg.isSome) && !(nameArg.isSome && hexArg.isSome)

/-- Lines 158-164: the `search_term` main passes to `find_opcode`.
`none` means neither branch assigned it, so line 167 raises an
unhandled `NameError`. -/
def mainSearchTerm (nameArg hexArg : Option String) : Option String :=
  if pyTruthy nameArg then nameArg
  else if pyTruthy hexArg then some (hexSearchTerm (hexArg.getD ""))
  else none

/-- The two rows of the spec §8 scenario. -/
def scenarioRows : List RawRow :=
  [ { hex := "0A", opcodeName := "const/16 vx,lit16"
      explanation := "Puts 16-bit const into vx", exampleText := "" }
  , { hex := "06", opcodeName := "move-result vx"
      explanation := "Moves result into vx", exampleText := "" } ]

/-- The record built from the scenario's first row. -/
def scenarioRec1 : OpcodeRecord :=
  { hex := "0A", name := "const/16", full_name := "const/16 vx,lit16"
    explanation := "Puts 16-bit const into vx", exampleText := "" }

/-- The record built from the scenario's second row. -/
def scenarioRec2 : OpcodeRecord :=
  { hex := "06", name := "move-result", full_name := "move-result vx"
    explanation := "Moves result into vx", exampleText := "" }

/-- The dict `fetch_opcodes` builds from the scenario rows. -/
def scenarioEntries : List (String × OpcodeRecord) :=
  [ ("const/16", scenarioRec1), ("hex:0A", scenarioRec1)
  , ("move-result", scenarioRec2), ("hex:06", scenarioRec2) ]

/-- The substring scan of lines 86-90, named for the statements below:
records of the entries whose key does not start with `"hex:"` and
contains `sl`, in dict iteration order. -/
def mnemonicMatches (opcodes : List (String × OpcodeRecord)) (sl : String) : List OpcodeRecord :=
  (opcodes.filter (fun nd => !startsWithStr nd.1 "hex:" && strContains nd.1 sl)).map Prod.snd

/-- Stated from the spec's words (§4.2 `byHex`): strip one leading
`"0x"`/`"0X"`, lowercase, left-pad to width 2.  Used to compare the
spec's normalization with the program's. -/
def stripLeading0x (s : String) : String :=
  if startsWithStr s "0x" || startsWithStr s "0X" then String.mk (s.data.drop 2) else s

/-- Stated from the spec's words (§4.2 `byHex`, §8): the claimed hex
normalization `pad(strip("0x", lower(input)), width=2, char='0')`. -/
def hexNormalizeSpec (s : String) : String :=
  zfill (strLower (stripLeading0x s)) 2

theorem lookupEntry_insert_self (es : List (String × OpcodeRecord)) (k : String) (v : OpcodeRecord) :
    lookupEntry (insertEntry es k v) k = some v := by
  induction es with
  | nil => simp [insertEntry, lookupEntry]
  | cons kv es ih =>
    obtain ⟨k', v'⟩ := kv
    by_cases h : k' = k
    · simp [insertEntry, h, lookupEntry]
    · simp [insertEntry, h, lookupEntry, ih]

theorem findHexDirect (es : List (String × OpcodeRecord)) (q : String)
    (h : startsWithStr (normalizeQuery q) "hex:" = true) :
    find_opcode es q =
      match lookupEntry es (normalizeQuery q) with
      | some d => .found d
      | none => .notFound := by
  cases hl : lookupEntry es (normalizeQuery q) <;> simp [find_opcode, h, hl]

theorem findExactHit (es : List (String × OpcodeRecord)) (q : String) (r : OpcodeRecord)
    (h : lookupEntry es (normalizeQuery q) = some r) :
    find_opcode es q = .found r := by
  by_cases hs : startsWithStr (normalizeQuery q) "hex:" = true
  · rw [findHexDirect es q hs, h]
  · have hs' : startsWithStr (normalizeQuery q) "hex:" = false := by simpa using hs
    simp [find_opcode, hs', h]

theorem mem_keys_insert_self (es : List (String × OpcodeRecord)) (k : String) (v : OpcodeRecord) :
    k ∈ (insertEntry es k v).map Prod.fst := by
  induction es with
  | nil => simp [insertEntry]
  | cons kv es ih =>
    obtain ⟨k', v'⟩ := kv
    by_cases h : k' = k
    · simp [insertEntry, h]
    · simp only [insertEntry, if_neg h, List.map_cons, List.mem_cons]
      exact Or.inr ih

theorem mem_keys_insert_mono (es : List (String × OpcodeRecord)) (k : String) (v : OpcodeRecord)
    (k' : String) (h : k' ∈ es.map Prod.fst) : k' ∈ (insertEntry es k v).map Prod.fst := by
  induction es with
  | nil => simp at h
  | cons kv es ih =>
    obtain ⟨a, b⟩ := kv
    by_cases hk : a = k
    · simp only [insertEntry, if_pos hk, List.map_cons, List.mem_cons] at h ⊢
      rcases h with h | h
      · exact Or.inl (h.trans hk)
      · exact Or.inr h
    · simp only [insertEntry, if_neg hk, List.map_cons, List.mem_cons] at h ⊢
      rcases h with h | h
      · exact Or.inl h
      · exact Or.inr (ih h)

theorem nameStep_keys {st st' : BuildState} {r : RawRow} {k : String}
    (h : nameStep st r = .ok st') (hk : k ∈ st.entries.map Prod.fst) :
    k ∈ st'.entries.map Prod.fst := by
  unfold nameStep at h
  by_cases hf : r.opcodeName = ""
  · rw [if_pos hf] at h
    injection h with h
    rw [← h]
    exact hk
  · rw [if_neg hf] at h
    cases hft : firstTok r.opcodeName with
    | none => rw [hft] at h; exact absurd h (by simp)
    | some t =>
      rw [hft] at h
      injection h with h
      rw [← h]
      exact mem_keys_insert_mono _ _ _ _ hk

theorem hexStep_keys {st st' : BuildState} {r : RawRow} {k : String}
    (h : hexStep st r = .ok st') (hk : k ∈ st.entries.map Prod.fst) :
    k ∈ st'.entries.map Prod.fst := by
  unfold hexStep at h
  by_cases hx : r.hex = ""
  · rw [if_pos hx] at h
    injection h with h
    rw [← h]
    exact hk
  · rw [if_neg hx] at h
    cases hln : st.lastNameLower with
    | none => rw [hln] at h; exact absurd h (by simp)
    | some nl =>
      rw [hln] at h
      injection h with h
      rw [← h]
      exact mem_keys_insert_mono _ _ _ _ hk

theorem hexStep_self {st st' : BuildState} {r : RawRow}
    (h : hexStep st r = .ok st') (hx : ¬ r.hex = "") :
    ("hex:" ++ r.hex) ∈ st'.entries.map Prod.fst := by
  unfold hexStep at h
  rw [if_neg hx] at h
  cases hln : st.lastNameLower with
  | none => rw [hln] at h; exact absurd h (by simp)
  | some nl =>
    rw [hln] at h
    injection h with h
    rw [← h]
    exact mem_keys_insert_self _ _ _

theorem buildStep_keys {st st' : BuildState} {r : RawRow} {k : String}
    (h : buildStep st r = .ok st') (hk : k ∈ st.entries.map Prod.fst) :
    k ∈ st'.entries.map Prod.fst := by
  unfold buildStep at h
  cases hn : nameStep st r with
  | error e => rw [hn] at h; exact absurd h (by simp)
  | ok st1 =>
    rw [hn] at h
    exact hexStep_keys h (nameStep_keys hn hk)

theorem buildStep_self {st st' : BuildState} {r : RawRow}
    (h : buildStep st r = .ok st') (hx : ¬ r.hex = "") :
    ("hex:" ++ r.hex) ∈ st'.entries.map Prod.fst := by
  unfold buildStep at h
  cases hn : nameStep st r with
  | error e => rw [hn] at h; exact absurd h (by simp)
  | ok st1 => rw [hn] at h; exact hexStep_self h hx

theorem buildGo_keys (rows : List RawRow) :
    ∀ (st : BuildState) (es : List (String × OpcodeRecord)) (k : String),
      buildGo st rows = .ok es → k ∈ st.entries.map Prod.fst → k ∈ es.map Prod.fst := by
  induction rows with
  | nil =>
    intro st es k h hk
    unfold buildGo at h
    injection h with h
    rw [← h]
    exact hk
  | cons r rs ih =>
    intro st es k h hk
    unfold buildGo at h
    cases hs : buildStep st r with
    | error e => rw [hs] at h; exact absurd h (by simp)
    | ok st1 =>
      rw [hs] at h
      exact ih st1 es k h (buildStep_keys hs hk)

theorem buildGo_hexKey (rows : List RawRow) :
    ∀ (st : BuildState) (es : List (String × OpcodeRecord)) (r : RawRow),
      buildGo st rows = .ok es → r ∈ rows → ¬ r.hex = "" →
      ("hex:" ++ r.hex) ∈ es.map Prod.fst := by
  induction rows with
  | nil => intro st es r _ hr; exact absurd hr (by simp)
  | cons r' rs ih =>
    intro st es r h hr hx
    unfold buildGo at h
    cases hs : buildStep st r' with
    | error e => rw [hs] at h; exact absurd h (by simp)
    | ok st1 =>
      rw [hs] at h
      rcases List.mem_cons.mp hr with he | hm
      · subst he
        exact buildGo_keys rs st1 es _ h (buildStep_self hs hx)
      · exact ih st1 es r h hm hx

/-- C1 counterexample: on the claimed row sequence, the record found by
name has hex field `"0A"` (raw cell text), not `"0a"`, and the query
`byHex "0A"` returns NotFound, not Found: main lowercases the query to
`"hex:0a"` while `fetch_opcodes` stored the key `"hex:0A"` unchanged. -/
theorem C1_counterexample :
    buildEntries scenarioRows = .ok scenarioEntries ∧
    find_opcode scenarioEntries "const/16" = .found scenarioRec1 ∧
    ¬ scenarioRec1.hex = "0a" ∧
    find_opcode scenarioEntries (hexSearchTerm "0A") = .notFound :=
  ⟨rfl, by decide⟩

/-- C1 amended: after building the index from the scenario rows, byName
`"const/16"` returns Found with the record whose hex field is `"0A"`
(case preserved from the cell), and byHex `"0A"` returns NotFound,
because the stored key keeps the raw cell text `"hex:0A"` while the
query normalizes to `"hex:0a"`. -/
theorem C1_theorem :
    buildEntries scenarioRows = .ok scenarioEntries ∧
    find_opcode scenarioEntries "const/16" = .found scenarioRec1 ∧
    scenarioRec1.hex = "0A" ∧
    find_opcode scenarioEntries (hexSearchTerm "0A") = .notFound :=
  ⟨rfl, by decide⟩

/-- C4 counterexample: hex-query normalization removes every occurrence
of `"0x"`, not only a leading one.  For the query value `"1f0x"` the
spec's normalization keeps `"1f0x"` (no leading `"0x"`), whose key is
absent, so the claim predicts NotFound; the program normalizes to
`"1f"` and returns Found. -/
theorem C4_counterexample :
    buildEntries [{ hex := "1f", opcodeName := "nop vx", explanation := "", exampleText := "" }] =
      .ok [("nop", { hex := "1f", name := "nop", full_name := "nop vx"
                     explanation := "", exampleText := "" }),
           ("hex:1f", { hex := "1f", name := "nop", full_name := "nop vx"
                        explanation := "", exampleText := "" })] ∧
    find_opcode [("nop", { hex := "1f", name := "nop", full_name := "nop vx"
                           explanation := "", exampleText := "" }),
                 ("hex:1f", { hex := "1f", name := "nop", full_name := "nop vx"
                              explanation := "", exampleText := "" })]
        (hexSearchTerm "1f0x") =
      .found { hex := "1f", name := "nop", full_name := "nop vx"
               explanation := "", exampleText := "" } ∧
    hexNormalizeSpec "1f0x" = "1f0x" ∧
    lookupEntry [("nop", { hex := "1f", name := "nop", full_name := "nop vx"
                           explanation := "", exampleText := "" }),
                 ("hex:1f", { hex := "1f", name := "nop", full_name := "nop vx"
                              explanation := "", exampleText := "" })]
        ("hex:" ++ hexNormalizeSpec "1f0x") = none :=
  ⟨rfl, by decide⟩

/-- C4 amended: a byHex query value `v` is normalized by lowercasing,
removing every occurrence of `"0x"`, trimming and zero-padding to
width 2 (`hexSearchTerm`); the resulting `"hex:"`-prefixed term is then
looked up directly in the mapping — Found if the key is present, else
NotFound, with no substring fallback applied. -/
theorem C4_theorem (es : List (String × OpcodeRecord)) (v : String)
    (h1 : normalizeQuery (hexSearchTerm v) = hexSearchTerm v)
    (h2 : startsWithStr (hexSearchTerm v) "hex:" = true) :
    find_opcode es (hexSearchTerm v) =
      match lookupEntry es (hexSearchTerm v) with
      | some d => .found d
      | none => .notFound := by
  have h := findHexDirect es (hexSearchTerm v) (by rw [h1]; exact h2)
  rwa [h1] at h

/-- C4 witness: the amended theorem at the concrete query `"0x1F"`
against the index of one row with hex cell `"1f"`. -/
theorem C4_witness :
    find_opcode [("nop", { hex := "1f", name := "nop", full_name := "nop vx"
                           explanation := "", exampleText := "" }),
                 ("hex:1f", { hex := "1f", name := "nop", full_name := "nop vx"
                              explanation := "", exampleText := "" })]
        (hexSearchTerm "0x1F") =
      .found { hex := "1f", name := "nop", full_name := "nop vx"
               explanation := "", exampleText := "" } :=
  (C4_theorem _ "0x1F" (by decide) (by decide)).trans (by decide)

/-- C5: a byName query whose lowercased, trimmed value is a key of the
mapping returns Found with that key's record — the exact match is taken
before any substring scan, whatever the other entries are. -/
theorem C5_theorem (es : List (String × OpcodeRecord)) (q : String) (r : OpcodeRecord)
    (h : lookupEntry es (normalizeQuery q) = some r) :
    find_opcode es q = .found r := by
  by_cases hs : startsWithStr (normalizeQuery q) "hex:" = true
  · rw [findHexDirect es q hs, h]
  · have hs' : startsWithStr (normalizeQuery q) "hex:" = false := by
      simpa using hs
    simp [find_opcode, hs', h]

/-- C5 witness: the exact-match theorem at the scenario index, with a
query differing from the stored key only in case. -/
theorem C5_witness : find_opcode scenarioEntries "MOVE-RESULT" = .found scenarioRec2 :=
  C5_theorem scenarioEntries "MOVE-RESULT" scenarioRec2 (by decide)

/-- C6 counterexample: a byName query that itself starts with `"hex:"`
never reaches the substring scan.  Here `"hex:zz"` has no exact match
and the mnemonic key `"thex:zzy"` contains it as a substring, so the
claim predicts Suggestions; the program answers NotFound through the
hex branch. -/
theorem C6_counterexample :
    buildEntries [{ hex := "", opcodeName := "Thex:zzy vx", explanation := "", exampleText := "" }] =
      .ok [("thex:zzy", { hex := "", name := "Thex:zzy", full_name := "Thex:zzy vx"
                          explanation := "", exampleText := "" })] ∧
    lookupEntry [("thex:zzy", { hex := "", name := "Thex:zzy", full_name := "Thex:zzy vx"
                                explanation := "", exampleText := "" })] "hex:zz" = none ∧
    startsWithStr "thex:zzy" "hex:" = false ∧
    strContains "thex:zzy" "hex:zz" = true ∧
    find_opcode [("thex:zzy", { hex := "", name := "Thex:zzy", full_name := "Thex:zzy vx"
                                explanation := "", exampleText := "" })] "hex:zz" = .notFound :=
  ⟨rfl, by decide⟩

/-- C6 amended: a byName query whose normalized value does not start
with `"hex:"` and has no exact match scans the entries whose key does
not start with `"hex:"` for keys containing the query as a substring,
returning Suggestions with all matching records in dict iteration order
when at least one matches, and NotFound when none match. -/
theorem C6_theorem (es : List (String × OpcodeRecord)) (q : String)
    (h1 : startsWithStr (normalizeQuery q) "hex:" = false)
    (h2 : lookupEntry es (normalizeQuery q) = none) :
    find_opcode es q =
      if mnemonicMatches es (normalizeQuery q) = [] then .notFound
      else .suggestions (mnemonicMatches es (normalizeQuery q)) := by
  simp [find_opcode, h1, h2, mnemonicMatches]

/-- C6 witness: the amended theorem at the spec scenario's `"const"`
query, which yields the suggestion list holding the const/16 record. -/
theorem C6_witness :
    find_opcode scenarioEntries "const" = .suggestions [scenarioRec1] :=
  (C6_theorem scenarioEntries "const" (by decide) (by decide)).trans (by decide)

/-- C9 counterexample: a mnemonic whose lowercased name starts with
`"hex:"` is still reachable by name.  The hex branch looks the term up
in the one shared dict, so byName `"HEX:weird"` finds the record stored
under the mnemonic key `"hex:weird"`, contradicting the claim that such
names are unreachable. -/
theorem C9_counterexample :
    buildEntries [{ hex := "0A", opcodeName := "HEX:weird vx", explanation := "", exampleText := "" }] =
      .ok [("hex:weird", { hex := "0A", name := "HEX:weird", full_name := "HEX:weird vx"
                           explanation := "", exampleText := "" }),
           ("hex:0A", { hex := "0A", name := "HEX:weird", full_name := "HEX:weird vx"
                        explanation := "", exampleText := "" })] ∧
    find_opcode [("hex:weird", { hex := "0A", name := "HEX:weird", full_name := "HEX:weird vx"
                                 explanation := "", exampleText := "" }),
                 ("hex:0A", { hex := "0A", name := "HEX:weird", full_name := "HEX:weird vx"
                              explanation := "", exampleText := "" })] "HEX:weird" =
      .found { hex := "0A", name := "HEX:weird", full_name := "HEX:weird vx"
               explanation := "", exampleText := "" } :=
  ⟨rfl, by decide⟩

/-- C9 amended: a byName query whose normalized value starts with
`"hex:"` is resolved by a direct lookup in the whole mapping (mnemonic
and hex keys alike) — Found if that literal key is present, else
NotFound — and never reaches the substring fallback; consequently a
mnemonic key beginning with `"hex:"` is still reachable by name. -/
theorem C9_theorem (es : List (String × OpcodeRecord)) (q : String)
    (h1 : startsWithStr (normalizeQuery q) "hex:" = true) :
    find_opcode es q =
      match lookupEntry es (normalizeQuery q) with
      | some d => .found d
      | none => .notFound :=
  findHexDirect es q h1

/-- C9 witness: the amended theorem at the scenario index and the query
`"hex:ff"`, whose key is absent, giving NotFound with no fallback. -/
theorem C9_witness : find_opcode scenarioEntries "hex:ff" = .notFound :=
  (C9_theorem scenarioEntries "hex:ff" (by decide)).trans (by decide)

/-- Fixture row with an uppercase hex cell. -/
def c2RowNop : RawRow :=
  { hex := "0A", opcodeName := "nop vx", explanation := "", exampleText := "" }

/-- Fixture row with a `"0x"`-prefixed hex cell. -/
def c2RowAdd : RawRow :=
  { hex := "0x1F", opcodeName := "add vx", explanation := "", exampleText := "" }

/-- Record built from `c2RowNop`. -/
def c2RecNop : OpcodeRecord :=
  { hex := "0A", name := "nop", full_name := "nop vx", explanation := "", exampleText := "" }

/-- Record built from `c2RowAdd`. -/
def c2RecAdd : OpcodeRecord :=
  { hex := "0x1F", name := "add", full_name := "add vx", explanation := "", exampleText := "" }

/-- The dict built from `[c2RowNop, c2RowAdd]`. -/
def c2Entries : List (String × OpcodeRecord) :=
  [("nop", c2RecNop), ("hex:0A", c2RecNop), ("add", c2RecAdd), ("hex:0x1F", c2RecAdd)]

/-- C2 counterexample: stored hex keys keep the raw cell text.  The
cell `"0A"` is stored as key `"hex:0A"` although the claimed
normalization gives `"0a"`, and the cell `"0x1F"` is stored as
`"hex:0x1F"` (four characters, `"0x"` kept) although the claimed
normalization gives `"1f"`; neither normalized key is in the mapping. -/
theorem C2_counterexample :
    buildEntries [c2RowNop, c2RowAdd] = .ok c2Entries ∧
    c2Entries.map Prod.fst = ["nop", "hex:0A", "add", "hex:0x1F"] ∧
    hexNormalizeSpec "0A" = "0a" ∧
    ("hex:" ++ hexNormalizeSpec "0A") ∉ c2Entries.map Prod.fst ∧
    hexNormalizeSpec "0x1F" = "1f" ∧
    ("hex:" ++ hexNormalizeSpec "0x1F") ∉ c2Entries.map Prod.fst :=
  ⟨rfl, by decide⟩

/-- C2 amended: for every row with a non-empty hex cell in a successful
build, the key stored in the mapping is `"hex:"` followed by the raw
stripped cell text — case, length and any `"0x"` marker preserved; no
two-character lowercase normalization is applied at storage time
(normalization happens only to `--hex` query values in `main`). -/
theorem C2_theorem (rows : List RawRow) (es : List (String × OpcodeRecord)) (r : RawRow)
    (h : buildEntries rows = .ok es) (hr : r ∈ rows) (hx : ¬ r.hex = "") :
    ("hex:" ++ r.hex) ∈ es.map Prod.fst :=
  buildGo_hexKey rows { entries := [], lastNameLower := none } es r h hr hx

/-- C2 witness: the amended theorem at the two fixture rows, for the
`"0x1F"` cell. -/
theorem C2_witness : ("hex:" ++ c2RowAdd.hex) ∈ c2Entries.map Prod.fst :=
  C2_theorem [c2RowNop, c2RowAdd] c2Entries c2RowAdd rfl (by decide) (by decide)

/-- Fixture: a row with a mnemonic, lowercase hex `"0a"`. -/
def c3Row1 : RawRow :=
  { hex := "0a", opcodeName := "nop vx", explanation := "e", exampleText := "x" }

/-- Fixture: a row with hex `"0b"` and an empty mnemonic column. -/
def c3Row2 : RawRow :=
  { hex := "0b", opcodeName := "", explanation := "", exampleText := "" }

/-- Record built from `c3Row1`. -/
def c3Rec : OpcodeRecord :=
  { hex := "0a", name := "nop", full_name := "nop vx", explanation := "e", exampleText := "x" }

/-- The dict built from `[c3Row1, c3Row2]`: the key `"hex:0b"` holds
the previous row's record, not an empty one. -/
def c3Entries : List (String × OpcodeRecord) :=
  [("nop", c3Rec), ("hex:0a", c3Rec), ("hex:0b", c3Rec)]

/-- C3 counterexample: a hex row with an empty mnemonic column does not
get an empty placeholder record.  After a previous named row, line 62
reads the stale local `name_lower` and stores that earlier row's record
(here the non-empty `"nop"` record under `"hex:0b"`); and when such a
row comes first, `name_lower` was never assigned and the build fails
with a `NameError` instead of storing anything. -/
theorem C3_counterexample :
    buildEntries [c3Row1, c3Row2] = .ok c3Entries ∧
    find_opcode c3Entries (hexSearchTerm "0b") = .found c3Rec ∧
    ¬ c3Rec = emptyRecord ∧
    ¬ c3Rec.name = "" ∧
    buildEntries [c3Row2] = .error .nameError :=
  ⟨rfl, by decide, by decide, by decide, rfl⟩

/-- C3 amended: for a row with a non-empty hex cell and an empty
mnemonic column that follows a row with a derived mnemonic, index
construction stores, under `"hex:" + hex`, the record currently held
under the most recently derived mnemonic key — not an empty placeholder
(and, per the counterexample, it fails with an error when no mnemonic
was ever derived). -/
theorem C3_theorem (r1 r2 : RawRow) (t : String) (es : List (String × OpcodeRecord))
    (h1 : firstTok r1.opcodeName = some t)
    (h2 : r2.opcodeName = "")
    (h3 : ¬ r2.hex = "")
    (h4 : buildEntries [r1, r2] = .ok es) :
    lookupEntry es ("hex:" ++ r2.hex) = some (mkRecord r1 t) := by
  have hne : ¬ r1.opcodeName = "" := by
    intro he
    rw [he] at h1
    have h0 : firstTok "" = none := rfl
    rw [h0] at h1
    exact Option.noConfusion h1
  have hn : nameStep { entries := [], lastNameLower := none } r1 =
      .ok { entries := [(strLower t, mkRecord r1 t)], lastNameLower := some (strLower t) } := by
    simp [nameStep, hne, h1, insertEntry]
  have hstep1 : ∃ E1 : List (String × OpcodeRecord),
      buildStep { entries := [], lastNameLower := none } r1 =
        .ok { entries := E1, lastNameLower := some (strLower t) } ∧
      lookupEntry E1 (strLower t) = some (mkRecord r1 t) := by
    by_cases hx1 : r1.hex = ""
    · exact ⟨[(strLower t, mkRecord r1 t)],
        by simp [buildStep, hn, hexStep, hx1], by simp [lookupEntry]⟩
    · refine ⟨insertEntry [(strLower t, mkRecord r1 t)] ("hex:" ++ r1.hex) (mkRecord r1 t), ?_, ?_⟩
      · simp [buildStep, hn, hexStep, hx1, lookupEntry]
      · by_cases hkk : strLower t = "hex:" ++ r1.hex <;> simp [insertEntry, lookupEntry, hkk]
  obtain ⟨E1, hb1, hl1⟩ := hstep1
  have hstep2 : buildStep { entries := E1, lastNameLower := some (strLower t) } r2 =
      .ok { entries := insertEntry E1 ("hex:" ++ r2.hex) (mkRecord r1 t)
            lastNameLower := some (strLower t) } := by
    simp [buildStep, nameStep, h2, hexStep, h3, hl1]
  have hb : buildEntries [r1, r2] =
      .ok (insertEntry E1 ("hex:" ++ r2.hex) (mkRecord r1 t)) := by
    simp [buildEntries, buildGo, hb1, hstep2]
  rw [hb] at h4
  injection h4 with h4
  rw [← h4]
  exact lookupEntry_insert_self _ _ _

/-- C3 witness: the amended theorem at the concrete fixture rows: the
key `"hex:0b"` of the empty-mnemonic row holds the `"nop"` record built
from the preceding row. -/
theorem C3_witness : lookupEntry c3Entries ("hex:" ++ c3Row2.hex) = some (mkRecord c3Row1 "nop") :=
  C3_theorem c3Row1 c3Row2 "nop" c3Entries rfl rfl (by decide) rfl

/-- Fixture row whose mnemonic token has mixed case. -/
def c7Row : RawRow :=
  { hex := "0A", opcodeName := "Const/16 vx,lit16", explanation := "e", exampleText := "" }

/-- The dict built from `[c7Row]`: the key is the lowercased token, the
stored record keeps the token's original case. -/
def c7Entries : List (String × OpcodeRecord) :=
  [("const/16", mkRecord c7Row "Const/16"), ("hex:0A", mkRecord c7Row "Const/16")]

/-- C7: for a row whose column 1 has a non-empty first
whitespace-delimited token `t`, the stored record's `name` is `t` with
its original case, the mapping key is `t` lowercased, and any byName
query that lowercases and trims to that key finds the record — the
comparison is case-insensitive. -/
theorem C7_theorem (r : RawRow) (t : String) (es : List (String × OpcodeRecord)) (q : String)
    (h1 : firstTok r.opcodeName = some t)
    (h2 : buildEntries [r] = .ok es)
    (h3 : normalizeQuery q = strLower t) :
    find_opcode es q = .found (mkRecord r t) ∧ (mkRecord r t).name = t := by
  have hne : ¬ r.opcodeName = "" := by
    intro he
    rw [he] at h1
    have h0 : firstTok "" = none := rfl
    rw [h0] at h1
    exact Option.noConfusion h1
  have hn : nameStep { entries := [], lastNameLower := none } r =
      .ok { entries := [(strLower t, mkRecord r t)], lastNameLower := some (strLower t) } := by
    simp [nameStep, hne, h1, insertEntry]
  refine ⟨?_, rfl⟩
  by_cases hx : r.hex = ""
  · have hb : buildEntries [r] = .ok [(strLower t, mkRecord r t)] := by
      simp [buildEntries, buildGo, buildStep, hn, hexStep, hx]
    rw [hb] at h2
    injection h2 with h2
    rw [← h2]
    apply findExactHit
    rw [h3]
    simp [lookupEntry]
  · have hl1 : lookupEntry [(strLower t, mkRecord r t)] (strLower t) = some (mkRecord r t) := by
      simp [lookupEntry]
    have hb : buildEntries [r] =
        .ok (insertEntry [(strLower t, mkRecord r t)] ("hex:" ++ r.hex) (mkRecord r t)) := by
      simp [buildEntries, buildGo, buildStep, hn, hexStep, hx, hl1]
    rw [hb] at h2
    injection h2 with h2
    rw [← h2]
    apply findExactHit
    rw [h3]
    by_cases hkk : strLower t = "hex:" ++ r.hex <;> simp [insertEntry, lookupEntry, hkk]

/-- C7 witness: the row stores mnemonic `"Const/16"` case-preserved and
the query `" CONST/16 "` (different case, surrounding whitespace) still
finds it. -/
theorem C7_witness :
    find_opcode c7Entries " CONST/16 " = .found (mkRecord c7Row "Const/16") ∧
    (mkRecord c7Row "Const/16").name = "Const/16" :=
  C7_theorem c7Row "Const/16" c7Entries " CONST/16 " rfl rfl (by decide)

/-- C8: rows with fewer than 3 cells are silently excluded — parsing
the cell rows equals extracting exactly the rows with at least 3 cells,
so no record derived from a short row ever reaches the index, and no
error is raised (the function is total). -/
theorem C8_theorem (cellRows : List (List String)) :
    parseRows cellRows = (cellRows.filter (fun cols => 3 ≤ cols.length)).map extractRow := by
  induction cellRows with
  | nil => rfl
  | cons c cs ih =>
    unfold parseRows at ih ⊢
    by_cases h : 3 ≤ c.length
    · simp [List.filterMap_cons, List.filter_cons, h, ih]
    · simp [List.filterMap_cons, List.filter_cons, h, ih]

/-- C8 witness: the theorem at a concrete cell-row list containing a
1-cell and a 2-cell row. -/
theorem C8_witness :
    parseRows [["0A", "nop vx", "e"], ["x"], ["a", "b"], ["a", "b", "c", "d"]] =
      ([["0A", "nop vx", "e"], ["x"], ["a", "b"], ["a", "b", "c", "d"]].filter
        (fun cols => 3 ≤ cols.length)).map extractRow :=
  C8_theorem [["0A", "nop vx", "e"], ["x"], ["a", "b"], ["a", "b", "c", "d"]]

/-- C10: supplying `--name ""` (or `--hex ""`) satisfies the
mutually-exclusive one-required argument check, yet both truthiness
tests at lines 159 and 161 fail, so `search_term` is never assigned:
no lookup happens and no usage error is reported — line 167 then raises
an unhandled `NameError` (modelled as `mainSearchTerm` returning
`none`). -/
theorem C10_theorem :
    (argsValid (some "") none = true ∧ mainSearchTerm (some "") none = none) ∧
    (argsValid none (some "") = true ∧ mainSearchTerm none (some "") = none) := by
  decide

end Dalvikpedia
